import Mathlib

/-!
Shallow embedding of the LightAgent repository's lighting decision engines.

The main engine is `SimpleLightAgent` in `src/simple_agent.py`: its pure decision
logic (lux arithmetic, presence/schedule evaluation, hysteresis, broken-light
tracking, and the per-cycle orchestration of `run_cycle`) is transcribed below.
Quantities the Python code handles as floats (lux, seconds) are modelled as `ℚ`;
Python `int(...)` conversion is truncation toward zero (`truncInt`); `datetime`
values are rationals (seconds), so `total_seconds() / 60` becomes division by 60.
A light's `state` string is compared by the code only against "ON", "OFF" and
"BROKEN"; every other string behaves uniformly, so states are modelled as a
four-element enumeration with an `OTHER` case. A failed
`datetime.fromisoformat` parse is modelled as `none`.

The superseded daylight-only variant (`src/src/light_agent.py`) is embedded in
the `Variant` namespace; its `LightState` enum has only ON and OFF
(`src/src/models.py`).
-/

namespace LightAgent

/-- Light state strings distinguished by `src/simple_agent.py` (lines 97, 234,
239-240, 256-257, 266, 282-283): "ON", "OFF", "BROKEN"; any other string is
never matched by these comparisons and is represented by `OTHER`. -/
inductive LState where
  | ON
  | OFF
  | BROKEN
  | OTHER
deriving DecidableEq, Repr

/-- One light entry of a room in the polled JSON snapshot. -/
structure Light where
  id : String
  state : LState
  brightness : Int
deriving DecidableEq, Repr

/-- One scheduled meeting; `none` models a timestamp on which
`datetime.fromisoformat` raises (`src/simple_agent.py` lines 177, 183, 187). -/
structure Meeting where
  startTime : Option ℚ
  endTime : Option ℚ
deriving DecidableEq, Repr

/-- One room of the snapshot (`src/simple_agent.py` lines 219-224). -/
structure Room where
  id : String
  name : String
  peopleCount : Nat
  lights : List Light
  scheduledMeetings : List Meeting
  illumination : ℚ
deriving DecidableEq, Repr

/-- One polled environment snapshot (`src/simple_agent.py` lines 205-212);
`simulationTime = none` models an unparseable `simulationTime` string. -/
structure Snapshot where
  powerOutage : Bool
  simulationTime : Option ℚ
  rooms : List Room
deriving DecidableEq, Repr

/-- The configuration attributes set in `SimpleLightAgent.__init__`
(`src/simple_agent.py` lines 36-39). -/
structure Config where
  min_illumination_lux : ℚ
  minutes_before_meeting : ℚ
  minutes_to_turn_off : ℚ
  max_light_lux : ℚ
deriving DecidableEq, Repr

/-- The values assigned in `__init__`: 700 lux, 1 minute, 5 minutes, 500 lux. -/
def defaultConfig : Config := ⟨700, 1, 5, 500⟩

/-- The engine's mutable per-process state: `self.last_people_time` (room id to
last simulation time with occupants, line 42) and `self.broken_lights` (set of
light ids, line 45), both modelled as total maps. -/
structure AgentState where
  last_people_time : String → Option ℚ
  broken_lights : String → Bool

/-- The empty maps the constructor starts from. -/
def initialState : AgentState := ⟨fun _ => none, fun _ => false⟩

/-- One actuation command as sent by `set_light(light_id, state, brightness)`
(`src/simple_agent.py` line 77); an OFF command carries the default
brightness 100. -/
structure Cmd where
  lightId : String
  state : LState
  brightness : Int
deriving DecidableEq, Repr

/-- The broken/repaired observability events logged at
`src/simple_agent.py` lines 245 and 249. -/
inductive Event where
  | newlyBroken (lightId : String)
  | repaired (lightId : String)
deriving DecidableEq, Repr

/-- `light.get("state") == "ON"`. -/
def Light.isOn (l : Light) : Bool :=
  match l.state with
  | .ON => true
  | _ => false

/-- `light.get("state") == "OFF"`. -/
def Light.isOff (l : Light) : Bool :=
  match l.state with
  | .OFF => true
  | _ => false

/-- `light.get("state") == "BROKEN"`. -/
def Light.isBroken (l : Light) : Bool :=
  match l.state with
  | .BROKEN => true
  | _ => false

/-- Python `int(x)` on a float: truncation toward zero. -/
def truncInt (q : ℚ) : Int := if 0 ≤ q then ⌊q⌋ else ⌈q⌉

/-- `calculate_light_contribution` (`src/simple_agent.py` lines 93-100): lux
contributed by one light, `(brightness / 100) * max_light_lux` when ON, else 0. -/
def calculate_light_contribution (cfg : Config) (light : Light) : ℚ :=
  if light.isOn then (light.brightness : ℚ) / 100 * cfg.max_light_lux else 0

/-- `calculate_illumination_after_turning_off` (lines 102-107). -/
def calculate_illumination_after_turning_off (cfg : Config) (current_illumination : ℚ)
    (lights_to_turn_off : List Light) : ℚ :=
  current_illumination - (lights_to_turn_off.map (calculate_light_contribution cfg)).sum

/-- `calculate_optimal_brightness_for_lights` (lines 109-145): even retargeting
of the already-on lights, brightness truncated then clamped to [1, 100], with a
5-point deadband per light. -/
def calculate_optimal_brightness_for_lights (cfg : Config) (current_illumination : ℚ)
    (lights_on : List Light) : List (String × Int) :=
  if lights_on.isEmpty then []
  else if cfg.min_illumination_lux ≤ current_illumination then []
  else
    let current_lights_lux := (lights_on.map (calculate_light_contribution cfg)).sum
    let needed_lux := cfg.min_illumination_lux - current_illumination
    let target_lights_lux := current_lights_lux + needed_lux
    let target_lux_per_light := target_lights_lux / (lights_on.length : ℚ)
    let target_brightness_per_light : Int :=
      max 1 (min 100 (truncInt (target_lux_per_light / cfg.max_light_lux * 100)))
    lights_on.filterMap fun light =>
      if 5 < (light.brightness - target_brightness_per_light).natAbs then
        some (light.id, target_brightness_per_light)
      else none

/-- `calculate_lights_needed` (lines 147-172): number of off lights to activate
and the brightness for the last one. -/
def calculate_lights_needed (cfg : Config) (current_illumination : ℚ)
    (working_lights : List Light) : Nat × Int :=
  if cfg.min_illumination_lux ≤ current_illumination then (0, 0)
  else
    let needed_lux := cfg.min_illumination_lux - current_illumination
    let full_lights_needed : Int := truncInt (needed_lux / cfg.max_light_lux)
    let remaining_lux := needed_lux - full_lights_needed * cfg.max_light_lux
    if 0 < remaining_lux then
      (min (full_lights_needed + 1).toNat working_lights.length,
        truncInt (remaining_lux / cfg.max_light_lux * 100))
    else
      (min full_lights_needed.toNat working_lights.length, 100)

/-- `has_upcoming_meeting` (lines 174-189): a meeting matches when it starts
within the lead window, or the current time lies inside it; an unparseable
timestamp aborts that meeting's checks (the `except` clause). -/
def has_upcoming_meeting (cfg : Config) (meetings : List Meeting)
    (simulation_time : ℚ) : Bool :=
  meetings.any fun meeting =>
    match meeting.startTime with
    | none => false
    | some start_time =>
      let time_until := (start_time - simulation_time) / 60
      if 0 ≤ time_until ∧ time_until ≤ cfg.minutes_before_meeting then true
      else
        match meeting.endTime with
        | none => false
        | some end_time => decide (start_time ≤ simulation_time ∧ simulation_time ≤ end_time)

/-- `should_turn_off` (lines 191-198). -/
def should_turn_off (cfg : Config) (last_people_time : String → Option ℚ)
    (room_id : String) (simulation_time : ℚ) : Bool :=
  match last_people_time room_id with
  | none => true
  | some last_time =>
    decide (cfg.minutes_to_turn_off ≤ (simulation_time - last_time) / 60)

/-- The broken/repaired scan over a room's lights (lines 237-249), threading the
`broken_lights` set and collecting the logged events in order. -/
def processBrokenLights (broken_lights : String → Bool) :
    List Light → (String → Bool) × List Event
  | [] => (broken_lights, [])
  | light :: rest =>
    let step : (String → Bool) × List Event :=
      if light.isBroken then
        if broken_lights light.id then (broken_lights, [])
        else (fun x => if x = light.id then true else broken_lights x,
          [Event.newlyBroken light.id])
      else
        if broken_lights light.id then
          (fun x => if x = light.id then false else broken_lights x,
            [Event.repaired light.id])
        else (broken_lights, [])
    let next := processBrokenLights step.1 rest
    (next.1, step.2 ++ next.2)

/-- `needs_lighting = people_count > 0 or meeting_soon` (line 231). -/
def needs_lighting (cfg : Config) (room : Room) (simulation_time : ℚ) : Bool :=
  decide (0 < room.peopleCount)
    || has_upcoming_meeting cfg room.scheduledMeetings simulation_time

/-- `working_lights` (line 234): the non-BROKEN lights. -/
def working_lights (room : Room) : List Light :=
  room.lights.filter fun l => !l.isBroken

/-- `lights_on` (lines 266, 282): working lights whose state is ON. -/
def lightsOn (room : Room) : List Light :=
  (working_lights room).filter Light.isOn

/-- `lights_off` (line 283): working lights whose state is OFF. -/
def lightsOff (room : Room) : List Light :=
  (working_lights room).filter Light.isOff

/-- `set_light(light_id, "OFF")` with the default brightness argument. -/
def offCommand (l : Light) : Cmd := ⟨l.id, .OFF, 100⟩

/-- Lines 251-261: with no lighting required, turn every working ON light off
once the hysteresis authorizes it. -/
def absenceCommands (cfg : Config) (last_people_time : String → Option ℚ)
    (room : Room) (simulation_time : ℚ) : List Cmd :=
  if should_turn_off cfg last_people_time room.id simulation_time then
    (lightsOn room).map offCommand
  else []

/-- Lines 263-278: illumination already sufficient; turn all working ON lights
off only when the predicted illumination stays at or above the minimum. -/
def sufficientCommands (cfg : Config) (room : Room) : List Cmd :=
  if lightsOn room ≠ [] ∧
      cfg.min_illumination_lux ≤
        calculate_illumination_after_turning_off cfg room.illumination (lightsOn room) then
    (lightsOn room).map offCommand
  else []

/-- Lines 286-291: the brightness updates of pass a, sent as ON commands. -/
def rebalanceCommands (cfg : Config) (room : Room) : List Cmd :=
  (calculate_optimal_brightness_for_lights cfg room.illumination (lightsOn room)).map
    fun p => ⟨p.1, .ON, p.2⟩

/-- Lines 315-320: each activated light is commanded ON at 100, except the final
one which receives the last-light brightness (`i == len(lights_to_turn_on) - 1`). -/
def activationCommands : List Light → Int → List Cmd
  | [], _ => []
  | [light], last_light_brightness => [⟨light.id, .ON, last_light_brightness⟩]
  | light :: next :: rest, last_light_brightness =>
    ⟨light.id, .ON, 100⟩ :: activationCommands (next :: rest) last_light_brightness

/-- Lines 296-309: the `lights_needed == 0` sub-branch: turn off all ON lights
but the first, when more than one is on and the predicted illumination stays at
or above the minimum. -/
def energySavingCommands (cfg : Config) (room : Room) : List Cmd :=
  if 1 < (lightsOn room).length then
    if cfg.min_illumination_lux ≤
        calculate_illumination_after_turning_off cfg room.illumination
          ((lightsOn room).drop 1) then
      ((lightsOn room).drop 1).map offCommand
    else []
  else []

/-- Lines 280-322: the below-minimum branch: rebalance pass a, then either the
`lights_needed == 0` sub-branch or the activation pass b. Pass b's
`calculate_lights_needed` is fed `illumination`, the unchanged snapshot value
(line 294). -/
def belowCommands (cfg : Config) (room : Room) : List Cmd :=
  rebalanceCommands cfg room ++
    (if (calculate_lights_needed cfg room.illumination (lightsOff room)).1 = 0 then
      energySavingCommands cfg room
    else
      activationCommands
        ((lightsOff room).take (calculate_lights_needed cfg room.illumination (lightsOff room)).1)
        (calculate_lights_needed cfg room.illumination (lightsOff room)).2)

/-- The command-producing part of the per-room body of `run_cycle`
(lines 251-322), after the presence update and broken-light scan. -/
def roomCommands (cfg : Config) (last_people_time : String → Option ℚ)
    (room : Room) (simulation_time : ℚ) : List Cmd :=
  if needs_lighting cfg room simulation_time then
    if cfg.min_illumination_lux ≤ room.illumination then sufficientCommands cfg room
    else belowCommands cfg room
  else absenceCommands cfg last_people_time room simulation_time

/-- One iteration of the room loop (lines 218-322): record presence at the
simulation time when occupied (lines 227-228), scan for broken/repaired lights
(lines 237-249), then emit the branch's commands. -/
def processRoom (cfg : Config) (st : AgentState) (simulation_time : ℚ) (room : Room) :
    AgentState × List Cmd × List Event :=
  let lpt := if 0 < room.peopleCount then
      (fun x => if x = room.id then some simulation_time else st.last_people_time x)
    else st.last_people_time
  let tracked := processBrokenLights st.broken_lights room.lights
  (⟨lpt, tracked.1⟩, roomCommands cfg lpt room simulation_time, tracked.2)

/-- The room loop, threading the agent state and concatenating commands and
events in room order. -/
def processRooms (cfg : Config) (st : AgentState) (simulation_time : ℚ) :
    List Room → AgentState × List Cmd × List Event
  | [] => (st, [], [])
  | room :: rest =>
    let first := processRoom cfg st simulation_time room
    let others := processRooms cfg first.1 simulation_time rest
    (others.1, first.2.1 ++ others.2.1, first.2.2 ++ others.2.2)

/-- `run_cycle` on one successfully fetched snapshot (lines 200-322): the
simulation time is the parsed `simulationTime`, falling back to the wall clock
`datetime.now()` when parsing fails (lines 208-212); a power outage ends the
cycle before any room is processed (lines 214-216). -/
def runCycle (cfg : Config) (st : AgentState) (snap : Snapshot) (wall_clock : ℚ) :
    AgentState × List Cmd × List Event :=
  let simulation_time := snap.simulationTime.getD wall_clock
  if snap.powerOutage then (st, [], [])
  else processRooms cfg st simulation_time snap.rooms

/-- A run over a sequence of cycles, each given its snapshot and the wall-clock
time at which the cycle happens to execute; collects all commands in order. -/
def runCycles (cfg : Config) :
    AgentState → List (Snapshot × ℚ) → AgentState × List Cmd
  | st, [] => (st, [])
  | st, (snap, wall_clock) :: rest =>
    let c := runCycle cfg st snap wall_clock
    let r := runCycles cfg c.1 rest
    (r.1, c.2.1 ++ r.2)

/-- The broken-light scan iterated over successive cycles' observations of a
room's lights, keeping each cycle's events separate. -/
def runBrokenTracker (broken_lights : String → Bool) :
    List (List Light) → (String → Bool) × List (List Event)
  | [] => (broken_lights, [])
  | lights :: rest =>
    let c := processBrokenLights broken_lights lights
    let r := runBrokenTracker c.1 rest
    (r.1, c.2 :: r.2)

end LightAgent

namespace LightAgent.Variant

/-- `LightState` of `src/src/models.py` (lines 12-15): only ON and OFF. -/
inductive VLightState where
  | ON
  | OFF
deriving DecidableEq, Repr

/-- `Light` of `src/src/models.py`. -/
structure VLight where
  id : String
  state : VLightState
  brightness : Int
deriving DecidableEq, Repr

/-- `Room` of `src/src/models.py`. -/
structure VRoom where
  id : String
  name : String
  lights : List VLight
  people_count : Nat
deriving DecidableEq, Repr

/-- `SimulatorState` of `src/src/models.py` (the fields the agent reads). -/
structure VSimState where
  rooms : List VRoom
  power_outage : Bool
  daylight_intensity : ℚ
deriving DecidableEq, Repr

/-- `LightAgentConfig` of `src/src/light_agent.py` (lines 23-40). -/
structure VConfig where
  daylight_threshold : ℚ
  min_brightness : Int
  max_brightness : Int
  auto_brightness : Bool
deriving DecidableEq, Repr

/-- The dataclass defaults. -/
def defaultVConfig : VConfig := ⟨3 / 10, 30, 100, true⟩

/-- A `turn_on_light` or `turn_off_light` call of the variant's client. -/
inductive VCmd where
  | turnOn (lightId : String) (brightness : Int)
  | turnOff (lightId : String)
deriving DecidableEq, Repr

def VLight.isOn (l : VLight) : Bool :=
  match l.state with
  | .ON => true
  | .OFF => false

/-- `_calculate_brightness` (`src/src/light_agent.py` lines 91-105). -/
def calculateBrightness (cfg : VConfig) (daylight_intensity : ℚ) : Int :=
  if !cfg.auto_brightness then cfg.max_brightness
  else
    let brightness_range := cfg.max_brightness - cfg.min_brightness
    let brightness :=
      LightAgent.truncInt ((cfg.max_brightness : ℚ) - daylight_intensity * (brightness_range : ℚ))
    max cfg.min_brightness (min cfg.max_brightness brightness)

/-- `_should_lights_be_on` (lines 107-127): an outage forces OFF, otherwise
occupancy decides. -/
def shouldLightsBeOn (room : VRoom) (state : VSimState) : Bool :=
  if state.power_outage then false
  else decide (0 < room.people_count)

/-- The commands `_process_room` issues (lines 133-178). -/
def processRoomCommands (cfg : VConfig) (room : VRoom) (state : VSimState) : List VCmd :=
  let should_be_on := shouldLightsBeOn room state
  let target_brightness := calculateBrightness cfg state.daylight_intensity
  room.lights.filterMap fun light =>
    if should_be_on ∧ ¬ light.isOn then some (VCmd.turnOn light.id target_brightness)
    else if ¬ should_be_on ∧ light.isOn then some (VCmd.turnOff light.id)
    else if should_be_on ∧ light.isOn ∧ cfg.auto_brightness
        ∧ light.brightness ≠ target_brightness then
      some (VCmd.turnOn light.id target_brightness)
    else none

/-- The commands one `process_state` cycle issues (lines 180-194). -/
def processStateCommands (cfg : VConfig) (state : VSimState) : List VCmd :=
  (state.rooms.map fun room => processRoomCommands cfg room state).flatten

end LightAgent.Variant

namespace LightAgent

/-! ### General helper lemmas -/

theorem truncInt_of_nonneg {q : ℚ} (h : 0 ≤ q) : truncInt q = ⌊q⌋ := by
  simp [truncInt, h]

theorem filterMap_guard_map {α β : Type} (p : α → Bool) (f : α → β) (l : List α) :
    (l.filterMap fun a => if p a then some (f a) else none) = (l.filter p).map f := by
  induction l with
  | nil => simp
  | cons a t ih => by_cases h : p a <;> simp [h, ih]

/-! ### Lemmas about the hysteresis tracker (claim C7) -/

/-- Claim C7: `should_turn_off` returns true when the room has no recorded
last-presence time; otherwise, with last-presence time `T` and the configured
turn-off delay (in minutes, times in seconds), it returns true exactly when
`(t - T) / 60` has reached the delay — so it is false at every simulation time
strictly between `T` and `T` plus the delay, and true from that point on. -/
theorem should_turn_off_spec (cfg : Config) (last_people_time : String → Option ℚ)
    (room_id : String) (simulation_time : ℚ) :
    should_turn_off cfg last_people_time room_id simulation_time = true ↔
      (last_people_time room_id = none ∨
        ∃ T, last_people_time room_id = some T ∧
          cfg.minutes_to_turn_off ≤ (simulation_time - T) / 60) := by
  unfold should_turn_off
  cases h : last_people_time room_id with
  | none => simp [h]
  | some T => simp [h]

/-! ### Lemmas about the broken-light tracker (claim C9) -/

theorem processBrokenLights_broken_first (b : String → Bool) (i : String) (br : Int)
    (hb : b i = false) :
    processBrokenLights b [⟨i, .BROKEN, br⟩]
      = ((fun x => if x = i then true else b x), [Event.newlyBroken i]) := by
  simp [processBrokenLights, Light.isBroken, hb]

theorem processBrokenLights_broken_again (b : String → Bool) (i : String) (br : Int)
    (hb : b i = true) :
    processBrokenLights b [⟨i, .BROKEN, br⟩] = (b, []) := by
  simp [processBrokenLights, Light.isBroken, hb]

theorem processBrokenLights_repaired (b : String → Bool) (i : String) (s : LState)
    (br : Int) (hs : s ≠ .BROKEN) (hb : b i = true) :
    processBrokenLights b [⟨i, s, br⟩]
      = ((fun x => if x = i then false else b x), [Event.repaired i]) := by
  cases s <;> simp_all [processBrokenLights, Light.isBroken]

theorem runBrokenTracker_broken_steady (b : String → Bool) (i : String) (br : Int)
    (hb : b i = true) (m : Nat) (rest : List (List Light)) :
    runBrokenTracker b (List.replicate m [⟨i, .BROKEN, br⟩] ++ rest)
      = ((runBrokenTracker b rest).1,
          List.replicate m [] ++ (runBrokenTracker b rest).2) := by
  induction m with
  | zero => simp
  | succ k ih =>
    rw [List.replicate_succ, List.cons_append]
    simp [runBrokenTracker, processBrokenLights_broken_again b i br hb, ih,
      List.replicate_succ]

/-- Claim C9: broken-light reporting is exactly-once per transition. Starting
from a state where light `i` is not flagged, observing it BROKEN for `n ≥ 1`
consecutive cycles and then non-BROKEN produces the newly-broken event exactly
once (in the first cycle), no events while it stays broken, and the repaired
event exactly once (in the final cycle). -/
theorem broken_light_events_once (b : String → Bool) (i : String) (s' : LState)
    (br br' : Int) (n : Nat) (hb : b i = false) (hn : 0 < n) (hs : s' ≠ .BROKEN) :
    (runBrokenTracker b
        (List.replicate n [⟨i, .BROKEN, br⟩] ++ [[⟨i, s', br'⟩]])).2
      = [Event.newlyBroken i] :: (List.replicate (n - 1) [] ++ [[Event.repaired i]]) := by
  obtain ⟨m, rfl⟩ : ∃ m, n = m + 1 := ⟨n - 1, (Nat.succ_pred_eq_of_pos hn).symm⟩
  rw [List.replicate_succ, List.cons_append]
  obtain ⟨b1, hb1eq, hb1⟩ :
      ∃ b1, processBrokenLights b [⟨i, .BROKEN, br⟩] = (b1, [Event.newlyBroken i])
        ∧ b1 i = true :=
    ⟨_, processBrokenLights_broken_first b i br hb, by simp⟩
  have h2 := runBrokenTracker_broken_steady b1 i br hb1 m [[⟨i, s', br'⟩]]
  have h3 : (runBrokenTracker b1 [[⟨i, s', br'⟩]]).2 = [[Event.repaired i]] := by
    simp [runBrokenTracker, processBrokenLights_repaired b1 i s' br' hs hb1]
  simp only [runBrokenTracker, hb1eq, h2, h3, Nat.add_sub_cancel]
  simp [h3, processBrokenLights_repaired b1 i s' br' hs hb1]

/-- Witness for claim C9's theorem at a concrete input: three consecutive BROKEN
observations of light "b1" followed by an OFF observation. -/
theorem broken_light_events_once_witness :
    (runBrokenTracker (fun _ => false)
        (List.replicate 3 [⟨"b1", .BROKEN, 0⟩] ++ [[⟨"b1", .OFF, 0⟩]])).2
      = [Event.newlyBroken "b1"] :: (List.replicate 2 [] ++ [[Event.repaired "b1"]]) :=
  broken_light_events_once (fun _ => false) "b1" .OFF 0 0 3 rfl (by decide) (by decide)

/-! ### Wall-clock independence and replayability (claim C6) -/

theorem runCycle_wall_clock_independent (cfg : Config) (st : AgentState)
    (snap : Snapshot) (w w' : ℚ) (h : snap.simulationTime ≠ none) :
    runCycle cfg st snap w = runCycle cfg st snap w' := by
  obtain ⟨t, ht⟩ := Option.ne_none_iff_exists'.mp h
  simp [runCycle, ht]

/-- Claim C6 (amended): the engine is deterministic and replayable from the
snapshot sequence alone provided every snapshot's `simulationTime` parses: two
runs fed the same snapshots, at arbitrary and possibly different wall-clock
times, produce identical agent states and identical command sequences. The
amendment is forced by the `datetime.now()` fallback of
`src/simple_agent.py` line 212, exhibited by the counterexample below. -/
theorem replayable_of_parseable_times (cfg : Config) (st : AgentState)
    (ps ps' : List (Snapshot × ℚ))
    (hsame : ps.map Prod.fst = ps'.map Prod.fst)
    (hparse : ∀ p ∈ ps, p.1.simulationTime ≠ none) :
    runCycles cfg st ps = runCycles cfg st ps' := by
  induction ps generalizing st ps' with
  | nil =>
    cases ps' with
    | nil => rfl
    | cons hd' tl' => simp at hsame
  | cons hd tl ih =>
    cases ps' with
    | nil => simp at hsame
    | cons hd' tl' =>
      obtain ⟨s, w⟩ := hd
      obtain ⟨s', w'⟩ := hd'
      simp only [List.map_cons, List.cons.injEq] at hsame
      obtain ⟨hss, htails⟩ := hsame
      subst hss
      have hcycle : runCycle cfg st s w = runCycle cfg st s w' :=
        runCycle_wall_clock_independent cfg st s w w'
          (hparse (s, w) (List.mem_cons_self _ _))
      simp only [runCycles]
      rw [hcycle, ih (runCycle cfg st s w').1 tl' htails
        (fun p hp => hparse p (List.mem_cons_of_mem _ hp))]

end LightAgent

namespace LightAgent

/-- Concrete parseable-time snapshot for exercising replayability. -/
def c6snap1 : Snapshot := ⟨false, some 100, [⟨"r", "R", 1, [⟨"l1", .ON, 100⟩], [], 800⟩]⟩

/-- Second cycle's snapshot: the room is now empty. -/
def c6snap2 : Snapshot := ⟨false, some 1000, [⟨"r", "R", 0, [⟨"l1", .ON, 100⟩], [], 800⟩]⟩

/-- Same observation as `c6snap1` but with an unparseable `simulationTime`. -/
def c6badSnap1 : Snapshot := ⟨false, none, [⟨"r", "R", 1, [⟨"l1", .ON, 100⟩], [], 800⟩]⟩

/-- Witness for claim C6's amended theorem: with parseable simulation times the
same snapshots produce the same run, regardless of wall-clock times. -/
theorem replayable_of_parseable_times_witness :
    runCycles defaultConfig initialState [(c6snap1, 400), (c6snap2, 0)]
      = runCycles defaultConfig initialState [(c6snap1, 7), (c6snap2, 99)] :=
  replayable_of_parseable_times defaultConfig initialState
    [(c6snap1, 400), (c6snap2, 0)] [(c6snap1, 7), (c6snap2, 99)] rfl (by decide)

/-- Counterexample to claim C6 as stated: two runs over the identical snapshot
sequence (second conjunct) in which the first snapshot's `simulationTime` does
not parse. The `datetime.now()` fallback makes the recorded last-presence time
the wall-clock time, so the run whose first cycle executed at wall clock 400
turns light "l1" off in the second cycle while the run that executed at 1000
issues no command. -/
theorem wall_clock_leaks_into_commands :
    (runCycles defaultConfig initialState [(c6badSnap1, 400), (c6snap2, 0)]).2
        = [⟨"l1", .OFF, 100⟩]
      ∧ (runCycles defaultConfig initialState [(c6badSnap1, 1000), (c6snap2, 0)]).2 = []
      ∧ ([(c6badSnap1, 400), (c6snap2, 0)].map Prod.fst
          = [(c6badSnap1, 1000), (c6snap2, 0)].map Prod.fst) := by
  refine ⟨?_, ?_, rfl⟩ <;>
  · norm_num [runCycles, runCycle, processRooms, processRoom, roomCommands, needs_lighting,
      has_upcoming_meeting, belowCommands, rebalanceCommands, should_turn_off,
      calculate_optimal_brightness_for_lights, calculate_lights_needed, lightsOn,
      lightsOff, working_lights, Light.isOn, Light.isOff, Light.isBroken, truncInt,
      activationCommands, calculate_light_contribution, energySavingCommands,
      sufficientCommands, absenceCommands, offCommand, defaultConfig, initialState,
      calculate_illumination_after_turning_off, processBrokenLights,
      c6badSnap1, c6snap2] <;> decide

/-! ### Power outage behaviour of both engines (claim C8) -/

/-- Claim C8 (amended): when the snapshot's power-outage flag is set, the main
engine's `run_cycle` returns before processing any room and issues no command
at all; the superseded daylight-only variant, by contrast, handles the outage
per room and issues exactly one OFF command for every light currently ON
(and no ON command). -/
theorem outage_cycle_commands (cfg : Config) (st : AgentState) (snap : Snapshot)
    (w : ℚ) (vcfg : Variant.VConfig) (vstate : Variant.VSimState)
    (hout : snap.powerOutage = true) (hvout : vstate.power_outage = true) :
    (runCycle cfg st snap w).2.1 = [] ∧
      Variant.processStateCommands vcfg vstate
        = (vstate.rooms.map fun room =>
            (room.lights.filter Variant.VLight.isOn).map fun l =>
              Variant.VCmd.turnOff l.id).flatten := by
  refine ⟨by simp [runCycle, hout], ?_⟩
  unfold Variant.processStateCommands
  congr 1
  apply List.map_congr_left
  intro room _
  have hoff : Variant.shouldLightsBeOn room vstate = false := by
    simp [Variant.shouldLightsBeOn, hvout]
  simp only [Variant.processRoomCommands, hoff]
  rw [← filterMap_guard_map Variant.VLight.isOn (fun l => Variant.VCmd.turnOff l.id)]
  apply List.filterMap_congr
  intro light _
  simp

/-- Concrete outage snapshot for the main engine. -/
def c8snap : Snapshot := ⟨true, some 0, [⟨"r", "R", 3, [⟨"l1", .OFF, 0⟩], [], 0⟩]⟩

/-- Concrete outage state for the daylight-only variant: one room whose light
"v1" is ON and whose light "v2" is OFF. -/
def c8vstate : Variant.VSimState :=
  ⟨[⟨"vr", "VR", [⟨"v1", .ON, 80⟩, ⟨"v2", .OFF, 10⟩], 2⟩], true, 1 / 2⟩

/-- Witness for claim C8's amended theorem at a concrete outage snapshot. -/
theorem outage_cycle_commands_witness :
    (runCycle defaultConfig initialState c8snap 0).2.1 = [] ∧
      Variant.processStateCommands Variant.defaultVConfig c8vstate
        = (c8vstate.rooms.map fun room =>
            (room.lights.filter Variant.VLight.isOn).map fun l =>
              Variant.VCmd.turnOff l.id).flatten :=
  outage_cycle_commands defaultConfig initialState c8snap 0
    Variant.defaultVConfig c8vstate rfl rfl

/-- Counterexample to claim C8 as stated: during a power outage the daylight-only
variant (`src/src/light_agent.py` lines 143-166, cited by the claim) does issue
an actuation command — light "v1", occupied room, is commanded OFF. -/
theorem outage_variant_issues_command :
    Variant.processStateCommands Variant.defaultVConfig c8vstate
        = [Variant.VCmd.turnOff "v1"]
      ∧ ([Variant.VCmd.turnOff "v1"] : List Variant.VCmd) ≠ [] := by
  refine ⟨?_, by decide⟩
  norm_num [Variant.processStateCommands, Variant.processRoomCommands,
    Variant.shouldLightsBeOn, Variant.calculateBrightness, Variant.VLight.isOn,
    Variant.defaultVConfig, truncInt, c8vstate] <;> decide

end LightAgent

namespace LightAgent

/-! ### Basic facts about light predicates and memberships -/

theorem Light.isOn_iff (l : Light) : l.isOn = true ↔ l.state = .ON := by
  cases l with
  | mk i s b => cases s <;> simp [Light.isOn]

theorem Light.isOff_iff (l : Light) : l.isOff = true ↔ l.state = .OFF := by
  cases l with
  | mk i s b => cases s <;> simp [Light.isOff]

theorem lightsOn_sublist (room : Room) : (lightsOn room).Sublist room.lights :=
  (List.filter_sublist _).trans (List.filter_sublist _)

theorem lightsOff_sublist (room : Room) : (lightsOff room).Sublist room.lights :=
  (List.filter_sublist _).trans (List.filter_sublist _)

theorem mem_lights_of_mem_lightsOn {room : Room} {l : Light} (h : l ∈ lightsOn room) :
    l ∈ room.lights :=
  (lightsOn_sublist room).subset h

theorem mem_lights_of_mem_lightsOff {room : Room} {l : Light} (h : l ∈ lightsOff room) :
    l ∈ room.lights :=
  (lightsOff_sublist room).subset h

theorem state_of_mem_lightsOn {room : Room} {l : Light} (h : l ∈ lightsOn room) :
    l.state = .ON := by
  have := List.of_mem_filter h
  exact (Light.isOn_iff l).mp this

theorem state_of_mem_lightsOff {room : Room} {l : Light} (h : l ∈ lightsOff room) :
    l.state = .OFF := by
  have := List.of_mem_filter h
  exact (Light.isOff_iff l).mp this

theorem on_off_ids_disjoint {room : Room}
    (hids : (room.lights.map Light.id).Nodup) {i : String}
    (hon : i ∈ (lightsOn room).map Light.id)
    (hoff : i ∈ (lightsOff room).map Light.id) : False := by
  obtain ⟨l1, hl1, rfl⟩ := List.mem_map.mp hon
  obtain ⟨l2, hl2, heq⟩ := List.mem_map.mp hoff
  have h12 : l2 = l1 := List.inj_on_of_nodup_map hids
    (mem_lights_of_mem_lightsOff hl2) (mem_lights_of_mem_lightsOn hl1) heq
  have hs1 := state_of_mem_lightsOn hl1
  have hs2 := state_of_mem_lightsOff hl2
  rw [h12, hs1] at hs2
  exact LState.noConfusion hs2

/-! ### Nonnegative contributions and the dormant energy-saving sub-branch -/

theorem calculate_light_contribution_nonneg (cfg : Config) (l : Light)
    (hmax : 0 ≤ cfg.max_light_lux) (hbr : 0 ≤ l.brightness) :
    0 ≤ calculate_light_contribution cfg l := by
  unfold calculate_light_contribution
  split
  · have : (0 : ℚ) ≤ (l.brightness : ℚ) := by exact_mod_cast hbr
    positivity
  · exact le_refl 0

theorem energySavingCommands_empty (cfg : Config) (room : Room)
    (hmax : 0 ≤ cfg.max_light_lux)
    (hbr : ∀ l ∈ room.lights, 0 ≤ l.brightness)
    (hbelow : room.illumination < cfg.min_illumination_lux) :
    energySavingCommands cfg room = [] := by
  unfold energySavingCommands
  split
  · rw [if_neg]
    intro hcond
    have hsum : 0 ≤ (((lightsOn room).drop 1).map (calculate_light_contribution cfg)).sum := by
      apply List.sum_nonneg
      intro q hq
      obtain ⟨l, hl, rfl⟩ := List.mem_map.mp hq
      have hmem : l ∈ room.lights :=
        mem_lights_of_mem_lightsOn ((List.drop_sublist 1 _).subset hl)
      exact calculate_light_contribution_nonneg cfg l hmax (hbr l hmem)
    unfold calculate_illumination_after_turning_off at hcond
    linarith
  · rfl

end LightAgent

namespace LightAgent

/-! ### Characterisation and bounds of `calculate_lights_needed` -/

theorem calculate_lights_needed_below (cfg : Config) (cur : ℚ) (ls : List Light)
    (D : ℚ) (full : Int) (rem : ℚ)
    (hmax : 0 < cfg.max_light_lux) (hcur : cur < cfg.min_illumination_lux)
    (hD : D = cfg.min_illumination_lux - cur)
    (hfull : full = ⌊D / cfg.max_light_lux⌋)
    (hrem : rem = D - full * cfg.max_light_lux) :
    calculate_lights_needed cfg cur ls
      = (min (full.toNat + (if rem = 0 then 0 else 1)) ls.length,
         if rem = 0 then (100 : Int) else ⌊rem / cfg.max_light_lux * 100⌋) := by
  have hDpos : 0 < D := by rw [hD]; linarith
  have hq : 0 ≤ D / cfg.max_light_lux := le_of_lt (div_pos hDpos hmax)
  have hfl0 : 0 ≤ full := hfull ▸ Int.floor_nonneg.mpr hq
  have hremnn : 0 ≤ rem := by
    have h1 : (full : ℚ) * cfg.max_light_lux ≤ D / cfg.max_light_lux * cfg.max_light_lux := by
      apply mul_le_mul_of_nonneg_right _ (le_of_lt hmax)
      rw [hfull]
      exact Int.floor_le _
    rw [div_mul_cancel₀ _ (ne_of_gt hmax)] at h1
    rw [hrem]
    linarith
  unfold calculate_lights_needed
  rw [if_neg (not_le.mpr hcur)]
  simp only [← hD, truncInt_of_nonneg hq, ← hfull, ← hrem]
  rcases eq_or_lt_of_le hremnn with hz | hpos
  · rw [if_neg (by rw [← hz]; exact lt_irrefl 0), if_pos hz.symm, if_pos hz.symm]
    simp
  · rw [if_pos hpos, if_neg (ne_of_gt hpos), if_neg (ne_of_gt hpos)]
    have hremq : 0 ≤ rem / cfg.max_light_lux * 100 := by positivity
    rw [truncInt_of_nonneg hremq]
    have : (full + 1).toNat = full.toNat + 1 := by omega
    rw [this]

theorem calculate_lights_needed_snd_bounds (cfg : Config) (cur : ℚ) (ls : List Light)
    (hmax : 0 < cfg.max_light_lux) :
    0 ≤ (calculate_lights_needed cfg cur ls).2
      ∧ (calculate_lights_needed cfg cur ls).2 ≤ 100 := by
  by_cases hcur : cfg.min_illumination_lux ≤ cur
  · unfold calculate_lights_needed
    rw [if_pos hcur]
    norm_num
  · push_neg at hcur
    rw [calculate_lights_needed_below cfg cur ls _ _ _ hmax hcur rfl rfl rfl]
    set D := cfg.min_illumination_lux - cur with hD
    set full := ⌊D / cfg.max_light_lux⌋ with hfull
    set rem := D - full * cfg.max_light_lux with hrem
    dsimp only
    by_cases hz : rem = 0
    · simp [hz]
    · simp only [hz, if_false]
      have hDpos : 0 < D := by rw [hD]; linarith
      have hq : 0 ≤ D / cfg.max_light_lux := le_of_lt (div_pos hDpos hmax)
      have hremnn : 0 ≤ rem := by
        have h1 : (full : ℚ) * cfg.max_light_lux
            ≤ D / cfg.max_light_lux * cfg.max_light_lux :=
          mul_le_mul_of_nonneg_right (Int.floor_le _) (le_of_lt hmax)
        rw [div_mul_cancel₀ _ (ne_of_gt hmax)] at h1
        rw [hrem]
        linarith
      have hremlt : rem < cfg.max_light_lux := by
        have h1 : D / cfg.max_light_lux < (full : ℚ) + 1 := Int.lt_floor_add_one _
        have h2 : D / cfg.max_light_lux * cfg.max_light_lux
            < ((full : ℚ) + 1) * cfg.max_light_lux :=
          mul_lt_mul_of_pos_right h1 hmax
        rw [div_mul_cancel₀ _ (ne_of_gt hmax)] at h2
        rw [hrem]
        nlinarith
      refine ⟨Int.floor_nonneg.mpr (by positivity), ?_⟩
      have hlt : rem / cfg.max_light_lux * 100 < 100 := by
        have : rem / cfg.max_light_lux < 1 := (div_lt_one hmax).mpr hremlt
        nlinarith
      have hfl := Int.floor_lt.mpr (by exact_mod_cast hlt :
        rem / cfg.max_light_lux * 100 < ((100 : Int) : ℚ))
      omega

/-! ### Shape of the activation commands -/

theorem activationCommands_closed (ls : List Light) (b : Int) :
    activationCommands ls b
      = (ls.dropLast.map fun l => (⟨l.id, .ON, 100⟩ : Cmd))
        ++ (ls.getLast?.elim [] fun l => [⟨l.id, .ON, b⟩]) := by
  induction ls with
  | nil => simp [activationCommands]
  | cons hd tl ih =>
    cases tl with
    | nil => simp [activationCommands]
    | cons hd2 tl2 =>
      rw [activationCommands, ih]
      simp [List.getLast?_cons_cons]

theorem activationCommands_mem {ls : List Light} {b : Int} {c : Cmd}
    (hc : c ∈ activationCommands ls b) :
    c.state = .ON ∧ c.lightId ∈ ls.map Light.id
      ∧ (c.brightness = 100 ∨ c.brightness = b) := by
  induction ls with
  | nil => simp [activationCommands] at hc
  | cons hd tl ih =>
    cases tl with
    | nil =>
      simp [activationCommands] at hc
      subst hc
      simp
    | cons hd2 tl2 =>
      rw [activationCommands] at hc
      rcases List.mem_cons.mp hc with h | h
      · subst h
        simp
      · obtain ⟨h1, h2, h3⟩ := ih h
        refine ⟨h1, ?_, h3⟩
        rw [List.map_cons]
        exact List.mem_cons_of_mem _ h2

theorem activationCommands_ids (ls : List Light) (b : Int) :
    (activationCommands ls b).map Cmd.lightId = ls.map Light.id := by
  induction ls with
  | nil => simp [activationCommands]
  | cons hd tl ih =>
    cases tl with
    | nil => simp [activationCommands]
    | cons hd2 tl2 =>
      rw [activationCommands]
      simp only [List.map_cons]
      rw [ih]
      simp

end LightAgent

namespace LightAgent

/-! ### Membership facts for each branch's command lists -/

theorem filterMap_map_sublist {α β γ : Type} (g : α → Option β) (h : β → γ) (f : α → γ)
    (hg : ∀ a b, g a = some b → h b = f a) (l : List α) :
    ((l.filterMap g).map h).Sublist (l.map f) := by
  induction l with
  | nil => simp
  | cons a t ih =>
    cases hga : g a with
    | none =>
      rw [List.filterMap_cons, hga, List.map_cons]
      exact ih.cons (f a)
    | some v =>
      rw [List.filterMap_cons, hga, List.map_cons, List.map_cons, hg a v hga]
      exact ih.cons₂ (f a)

theorem calculate_optimal_ids_sublist (cfg : Config) (cur : ℚ) (ls : List Light) :
    ((calculate_optimal_brightness_for_lights cfg cur ls).map Prod.fst).Sublist
      (ls.map Light.id) := by
  unfold calculate_optimal_brightness_for_lights
  split
  · simp
  · split
    · simp
    · dsimp only
      apply filterMap_map_sublist _ _ _ ?_
      intro a v hav
      split at hav
      · cases hav
        rfl
      · exact Option.noConfusion hav

theorem calculate_optimal_snd_bounds (cfg : Config) (cur : ℚ) (ls : List Light)
    (p : String × Int) (hp : p ∈ calculate_optimal_brightness_for_lights cfg cur ls) :
    1 ≤ p.2 ∧ p.2 ≤ 100 := by
  unfold calculate_optimal_brightness_for_lights at hp
  split at hp
  · simp at hp
  · split at hp
    · simp at hp
    · obtain ⟨light, _, hlight⟩ := List.mem_filterMap.mp hp
      split at hlight
      · cases hlight
        exact ⟨le_max_left 1 _, max_le (by norm_num) (min_le_left _ _)⟩
      · exact Option.noConfusion hlight

theorem rebalanceCommands_mem (cfg : Config) (room : Room) (c : Cmd)
    (hc : c ∈ rebalanceCommands cfg room) :
    c.state = .ON ∧ c.lightId ∈ (lightsOn room).map Light.id
      ∧ 1 ≤ c.brightness ∧ c.brightness ≤ 100 := by
  unfold rebalanceCommands at hc
  obtain ⟨p, hp, rfl⟩ := List.mem_map.mp hc
  have hid : p.1 ∈ (lightsOn room).map Light.id := by
    apply (calculate_optimal_ids_sublist cfg room.illumination (lightsOn room)).subset
    exact List.mem_map.mpr ⟨p, hp, rfl⟩
  have hb := calculate_optimal_snd_bounds cfg room.illumination (lightsOn room) p hp
  exact ⟨rfl, hid, hb.1, hb.2⟩

theorem sufficientCommands_mem (cfg : Config) (room : Room) (c : Cmd)
    (hc : c ∈ sufficientCommands cfg room) :
    c.lightId ∈ (lightsOn room).map Light.id ∧ c.state = .OFF ∧ c.brightness = 100 := by
  unfold sufficientCommands at hc
  split at hc
  · obtain ⟨l, hl, rfl⟩ := List.mem_map.mp hc
    exact ⟨List.mem_map.mpr ⟨l, hl, rfl⟩, rfl, rfl⟩
  · simp at hc

theorem energySavingCommands_mem (cfg : Config) (room : Room) (c : Cmd)
    (hc : c ∈ energySavingCommands cfg room) :
    c.lightId ∈ (lightsOn room).map Light.id ∧ c.state = .OFF ∧ c.brightness = 100 := by
  unfold energySavingCommands at hc
  split at hc
  · split at hc
    · obtain ⟨l, hl, rfl⟩ := List.mem_map.mp hc
      refine ⟨List.mem_map.mpr ⟨l, (List.drop_sublist _ _).subset hl, rfl⟩, rfl, rfl⟩
    · simp at hc
  · simp at hc

theorem absenceCommands_mem (cfg : Config) (last_people_time : String → Option ℚ)
    (room : Room) (t : ℚ) (c : Cmd) (hc : c ∈ absenceCommands cfg last_people_time room t) :
    c.lightId ∈ (lightsOn room).map Light.id ∧ c.state = .OFF ∧ c.brightness = 100 := by
  unfold absenceCommands at hc
  split at hc
  · obtain ⟨l, hl, rfl⟩ := List.mem_map.mp hc
    exact ⟨List.mem_map.mpr ⟨l, hl, rfl⟩, rfl, rfl⟩
  · simp at hc

/-! ### Branch selection in `roomCommands` -/

theorem needs_lighting_of_occupied (cfg : Config) (room : Room) (t : ℚ)
    (hocc : 0 < room.peopleCount) : needs_lighting cfg room t = true := by
  simp [needs_lighting, hocc]

theorem roomCommands_of_below (cfg : Config) (last_people_time : String → Option ℚ)
    (room : Room) (t : ℚ) (hneeds : needs_lighting cfg room t = true)
    (hbelow : room.illumination < cfg.min_illumination_lux) :
    roomCommands cfg last_people_time room t = belowCommands cfg room := by
  simp [roomCommands, hneeds, not_le.mpr hbelow]

theorem roomCommands_of_sufficient (cfg : Config) (last_people_time : String → Option ℚ)
    (room : Room) (t : ℚ) (hneeds : needs_lighting cfg room t = true)
    (hge : cfg.min_illumination_lux ≤ room.illumination) :
    roomCommands cfg last_people_time room t = sufficientCommands cfg room := by
  simp [roomCommands, hneeds, hge]

theorem calculate_lights_needed_of_ge (cfg : Config) (cur : ℚ) (ls : List Light)
    (hge : cfg.min_illumination_lux ≤ cur) :
    calculate_lights_needed cfg cur ls = (0, 0) := by
  unfold calculate_lights_needed
  rw [if_pos hge]

theorem roomCommands_occupied_decomp (cfg : Config) (last_people_time : String → Option ℚ)
    (room : Room) (t : ℚ) (n : Nat) (b : Int) (hocc : 0 < room.peopleCount)
    (hnb : (n, b) = calculate_lights_needed cfg room.illumination (lightsOff room)) :
    ∃ reb, roomCommands cfg last_people_time room t
        = reb ++ activationCommands ((lightsOff room).take n) b
      ∧ ∀ c ∈ reb, c.lightId ∈ (lightsOn room).map Light.id := by
  have hneeds := needs_lighting_of_occupied cfg room t hocc
  by_cases hge : cfg.min_illumination_lux ≤ room.illumination
  · rw [calculate_lights_needed_of_ge cfg room.illumination (lightsOff room) hge] at hnb
    have hn0 : n = 0 := by
      have := congrArg Prod.fst hnb
      simpa using this
    rw [roomCommands_of_sufficient cfg last_people_time room t hneeds hge, hn0]
    refine ⟨sufficientCommands cfg room, ?_, ?_⟩
    · simp [activationCommands]
    · intro c hc
      exact (sufficientCommands_mem cfg room c hc).1
  · push_neg at hge
    rw [roomCommands_of_below cfg last_people_time room t hneeds hge]
    unfold belowCommands
    rw [← hnb]
    by_cases hn : n = 0
    · rw [if_pos hn, hn]
      refine ⟨rebalanceCommands cfg room ++ energySavingCommands cfg room, ?_, ?_⟩
      · simp [activationCommands]
      · intro c hc
        rcases List.mem_append.mp hc with h | h
        · exact (rebalanceCommands_mem cfg room c h).2.1
        · exact (energySavingCommands_mem cfg room c h).1
    · rw [if_neg hn]
      exact ⟨rebalanceCommands cfg room, rfl,
        fun c hc => (rebalanceCommands_mem cfg room c hc).2.1⟩

end LightAgent

namespace LightAgent

/-! ### Decomposition of a cycle's command list by room -/

theorem processRoom_cmds (cfg : Config) (st : AgentState) (t : ℚ) (room : Room) :
    (processRoom cfg st t room).2.1
      = roomCommands cfg
          (if 0 < room.peopleCount then
            (fun x => if x = room.id then some t else st.last_people_time x)
          else st.last_people_time) room t := rfl

theorem processRooms_mem_decomp (cfg : Config) (t : ℚ) :
    ∀ (rooms : List Room) (st : AgentState) (room : Room), room ∈ rooms →
      ∃ (last_people_time : String → Option ℚ) (pre post : List Cmd),
        (processRooms cfg st t rooms).2.1
          = pre ++ roomCommands cfg last_people_time room t ++ post := by
  intro rooms
  induction rooms with
  | nil =>
    intro st room h
    simp at h
  | cons r rest ih =>
    intro st room h
    have hcons : ∀ r' : Room, (processRooms cfg st t (r' :: rest)).2.1
        = (processRoom cfg st t r').2.1
          ++ (processRooms cfg (processRoom cfg st t r').1 t rest).2.1 := fun _ => rfl
    rcases List.mem_cons.mp h with rfl | h
    · refine ⟨(if 0 < room.peopleCount then
          (fun x => if x = room.id then some t else st.last_people_time x)
        else st.last_people_time), [],
        (processRooms cfg (processRoom cfg st t room).1 t rest).2.1, ?_⟩
      rw [hcons, List.nil_append, ← processRoom_cmds cfg st t room]
    · obtain ⟨lpt, pre, post, heq⟩ := ih (processRoom cfg st t r).1 room h
      refine ⟨lpt, (processRoom cfg st t r).2.1 ++ pre, post, ?_⟩
      rw [hcons, heq]
      simp [List.append_assoc]

theorem processRooms_cmds_mem (cfg : Config) (t : ℚ) :
    ∀ (rooms : List Room) (st : AgentState) (c : Cmd),
      c ∈ (processRooms cfg st t rooms).2.1 →
      ∃ (last_people_time : String → Option ℚ) (room : Room),
        room ∈ rooms ∧ c ∈ roomCommands cfg last_people_time room t := by
  intro rooms
  induction rooms with
  | nil =>
    intro st c hc
    simp [processRooms] at hc
  | cons r rest ih =>
    intro st c hc
    have hc' : c ∈ (processRoom cfg st t r).2.1
        ∨ c ∈ (processRooms cfg (processRoom cfg st t r).1 t rest).2.1 :=
      List.mem_append.mp hc
    rcases hc' with h | h
    · rw [processRoom_cmds] at h
      exact ⟨_, r, List.mem_cons_self _ _, h⟩
    · obtain ⟨lpt, room, hmem, hcmd⟩ := ih (processRoom cfg st t r).1 c h
      exact ⟨lpt, room, List.mem_cons_of_mem _ hmem, hcmd⟩

end LightAgent

namespace LightAgent

/-! ### Claim C3: safe energy-saving turn-off at sufficient illumination -/

/-- Claim C3: for every room where lighting is required and the measured
illumination is already at or above `min_illumination_lux`, the engine evaluates
turning off the currently-on working lights and issues OFF commands to exactly
that set when the predicted post-turn-off illumination stays at or above the
minimum, and issues no command otherwise — so an energy-saving turn-off never
drops the predicted illumination below the minimum. -/
theorem sufficient_illumination_turn_off_safe (cfg : Config)
    (last_people_time : String → Option ℚ) (room : Room) (t : ℚ)
    (hneeds : needs_lighting cfg room t = true)
    (hge : cfg.min_illumination_lux ≤ room.illumination) :
    (roomCommands cfg last_people_time room t
      = if lightsOn room ≠ [] ∧
            cfg.min_illumination_lux ≤
              calculate_illumination_after_turning_off cfg room.illumination (lightsOn room)
        then (lightsOn room).map offCommand
        else [])
    ∧ (roomCommands cfg last_people_time room t ≠ [] →
        cfg.min_illumination_lux ≤
          calculate_illumination_after_turning_off cfg room.illumination (lightsOn room)) := by
  rw [roomCommands_of_sufficient cfg last_people_time room t hneeds hge]
  refine ⟨rfl, ?_⟩
  intro hne
  unfold sufficientCommands at hne
  split at hne
  · next hcond => exact hcond.2
  · exact absurd rfl hne

/-- Concrete input for claim C3's witness: an occupied room at 1300 lux with one
ON working light contributing 500 lux; turning it off leaves 800 ≥ 700 lux. -/
def c3room : Room := ⟨"r3", "R", 2, [⟨"s1", .ON, 100⟩], [], 1300⟩

/-- Witness for claim C3's theorem at `c3room`. -/
theorem sufficient_illumination_turn_off_safe_witness :
    (roomCommands defaultConfig (fun _ => none) c3room 0
      = if lightsOn c3room ≠ [] ∧
            defaultConfig.min_illumination_lux ≤
              calculate_illumination_after_turning_off defaultConfig
                c3room.illumination (lightsOn c3room)
        then (lightsOn c3room).map offCommand
        else [])
    ∧ (roomCommands defaultConfig (fun _ => none) c3room 0 ≠ [] →
        defaultConfig.min_illumination_lux ≤
          calculate_illumination_after_turning_off defaultConfig
            c3room.illumination (lightsOn c3room)) :=
  sufficient_illumination_turn_off_safe defaultConfig (fun _ => none) c3room 0
    (by decide) (by norm_num [defaultConfig, c3room])

/-! ### Claim C2: which deficit feeds the activation pass -/

/-- Claim C2 (amended): in the below-minimum branch, pass b's light count and
last-light brightness come from `calculate_lights_needed` applied to the room's
unchanged snapshot `illumination` (`src/simple_agent.py` line 294); the lux
contribution added by the rebalance commands just issued in pass a is not
subtracted. -/
theorem activation_deficit_is_snapshot_deficit (cfg : Config)
    (last_people_time : String → Option ℚ) (room : Room) (t : ℚ) (n : Nat) (b : Int)
    (hneeds : needs_lighting cfg room t = true)
    (hbelow : room.illumination < cfg.min_illumination_lux)
    (hnb : (n, b) = calculate_lights_needed cfg room.illumination (lightsOff room))
    (hn : n ≠ 0) :
    roomCommands cfg last_people_time room t
      = rebalanceCommands cfg room ++ activationCommands ((lightsOff room).take n) b := by
  rw [roomCommands_of_below cfg last_people_time room t hneeds hbelow]
  unfold belowCommands
  rw [← hnb, if_neg hn]

/-- The activation commands claim C2 predicts, modelled from the spec's words:
"After any rebalance, compute the remaining lux deficit" — i.e. the deficit is
taken against the snapshot illumination plus the lux added by the rebalance
commands just issued, and the count and brightness of the additional lights are
derived from that post-rebalance deficit. -/
def specC2ActivationCommands (cfg : Config) (room : Room) : List Cmd :=
  let updates := calculate_optimal_brightness_for_lights cfg room.illumination (lightsOn room)
  let post_lights_lux := ((lightsOn room).map fun l =>
    match updates.lookup l.id with
    | some nb => (nb : ℚ) / 100 * cfg.max_light_lux
    | none => calculate_light_contribution cfg l).sum
  let current_lights_lux := ((lightsOn room).map (calculate_light_contribution cfg)).sum
  let post_illumination := room.illumination + (post_lights_lux - current_lights_lux)
  activationCommands
    ((lightsOff room).take (calculate_lights_needed cfg post_illumination (lightsOff room)).1)
    (calculate_lights_needed cfg post_illumination (lightsOff room)).2

/-- Concrete input refuting claim C2: an occupied room at 100 lux whose single ON
light (brightness 10, contributing 50 lux) is rebalanced to 100 and whose single
OFF light is then activated. -/
def c2room : Room := ⟨"r2", "R", 1, [⟨"l1", .ON, 10⟩, ⟨"l2", .OFF, 0⟩], [], 100⟩

/-- Counterexample to claim C2 as stated: the cycle commands light "l2" ON at
brightness 20 (deficit 600 computed from the unchanged snapshot illumination of
100 lux), while the claim's post-rebalance deficit (150 lux, after pass a adds
450 lux) would command it at brightness 30. -/
theorem activation_ignores_rebalance_contribution :
    (runCycle defaultConfig initialState ⟨false, some 0, [c2room]⟩ 0).2.1
        = [⟨"l1", .ON, 100⟩, ⟨"l2", .ON, 20⟩]
      ∧ specC2ActivationCommands defaultConfig c2room = [⟨"l2", .ON, 30⟩]
      ∧ (⟨"l2", .ON, 20⟩ : Cmd) ≠ ⟨"l2", .ON, 30⟩ := by
  refine ⟨?_, ?_, by decide⟩ <;>
  · norm_num [runCycle, processRooms, processRoom, roomCommands, needs_lighting,
      has_upcoming_meeting, belowCommands, rebalanceCommands, should_turn_off,
      calculate_optimal_brightness_for_lights, calculate_lights_needed, lightsOn,
      lightsOff, working_lights, Light.isOn, Light.isOff, Light.isBroken, truncInt,
      activationCommands, calculate_light_contribution, energySavingCommands,
      sufficientCommands, absenceCommands, offCommand, defaultConfig, initialState,
      calculate_illumination_after_turning_off, processBrokenLights,
      specC2ActivationCommands, List.lookup, c2room] <;> decide

/-- Concrete input for claim C2's witness: occupied room at 300 lux, no ON
lights, one OFF light; the activation pass turns it on at 80. -/
def c2wroom : Room := ⟨"rw2", "R", 1, [⟨"a1", .OFF, 0⟩], [], 300⟩

/-- Witness for claim C2's amended theorem at `c2wroom`. -/
theorem activation_deficit_is_snapshot_deficit_witness :
    roomCommands defaultConfig (fun _ => none) c2wroom 0
      = rebalanceCommands defaultConfig c2wroom
        ++ activationCommands ((lightsOff c2wroom).take 1) 80 :=
  activation_deficit_is_snapshot_deficit defaultConfig (fun _ => none) c2wroom 0 1 80
    (by decide) (by norm_num [defaultConfig, c2wroom])
    (by norm_num [calculate_lights_needed, truncInt, defaultConfig, c2wroom, lightsOff,
      working_lights, Light.isOff, Light.isBroken] <;> decide)
    (by decide)

end LightAgent

namespace LightAgent

/-! ### Claim C1: the activation pass's count and last-light brightness -/

/-- Rounding to nearest, as in the claim's `round(remainingLux / maxLuxPerLight
* 100)`. Python's `round` breaks .5 ties to even; the input at which this is
compared against the code below is not a tie, where every convention agrees. -/
def roundNearest (q : ℚ) : Int := ⌊q + 1 / 2⌋

/-- Claim C1 (amended): for a room that requires lighting and is below the
minimum, with deficit `D`, the activation pass turns on exactly
`min(lightsNeeded, number of off working lights)` lights where
`lightsNeeded = ⌊D / max_light_lux⌋` plus one extra light exactly when the
remainder is nonzero; the lights are the prefix of the room's off working lights
in order, all commanded ON at 100 except the last, which receives
`⌊remainder / max_light_lux * 100⌋` — the `int()` truncation of the Python code,
not the rounding the claim states — or 100 when the remainder is zero. -/
theorem activation_count_and_floor_brightness (cfg : Config)
    (last_people_time : String → Option ℚ) (room : Room) (t D : ℚ) (full : Int)
    (rem : ℚ) (n : Nat) (b : Int)
    (hmax : 0 < cfg.max_light_lux)
    (hneeds : needs_lighting cfg room t = true)
    (hbelow : room.illumination < cfg.min_illumination_lux)
    (hD : D = cfg.min_illumination_lux - room.illumination)
    (hfull : full = ⌊D / cfg.max_light_lux⌋)
    (hrem : rem = D - full * cfg.max_light_lux)
    (hnb : (n, b) = calculate_lights_needed cfg room.illumination (lightsOff room)) :
    n = min (full.toNat + (if rem = 0 then 0 else 1)) (lightsOff room).length
    ∧ b = (if rem = 0 then (100 : Int) else ⌊rem / cfg.max_light_lux * 100⌋)
    ∧ (n ≠ 0 → roomCommands cfg last_people_time room t
        = rebalanceCommands cfg room ++ activationCommands ((lightsOff room).take n) b)
    ∧ (n = 0 → ∀ c ∈ roomCommands cfg last_people_time room t,
        c.state = .ON → c.lightId ∈ (lightsOn room).map Light.id)
    ∧ activationCommands ((lightsOff room).take n) b
        = (((lightsOff room).take n).dropLast.map fun l => (⟨l.id, .ON, 100⟩ : Cmd))
          ++ (((lightsOff room).take n).getLast?.elim [] fun l => [⟨l.id, .ON, b⟩]) := by
  have hcln := calculate_lights_needed_below cfg room.illumination (lightsOff room)
    D full rem hmax hbelow hD hfull hrem
  have hnb' := hnb
  rw [hcln, Prod.mk.injEq] at hnb'
  refine ⟨hnb'.1, hnb'.2, ?_, ?_, activationCommands_closed _ _⟩
  · intro hn
    rw [roomCommands_of_below cfg last_people_time room t hneeds hbelow]
    unfold belowCommands
    rw [← hnb, if_neg hn]
  · intro hn0 c hc hstate
    rw [roomCommands_of_below cfg last_people_time room t hneeds hbelow] at hc
    unfold belowCommands at hc
    rw [← hnb, if_pos hn0] at hc
    rcases List.mem_append.mp hc with h | h
    · exact (rebalanceCommands_mem cfg room c h).2.1
    · have := (energySavingCommands_mem cfg room c h).2.1
      rw [hstate] at this
      exact LState.noConfusion this

/-- Concrete input refuting claim C1's rounding: an occupied room at 467 lux,
deficit 233, one OFF working light. -/
def c1room : Room := ⟨"r1", "R", 1, [⟨"l1", .OFF, 0⟩], [], 467⟩

/-- Counterexample to claim C1 as stated: at deficit 233 the code activates one
light at brightness 46 (`int(233 / 500 * 100) = int(46.6) = 46`), while the
claim's `round(remainingLux / maxLuxPerLight * 100)` is 47. -/
theorem last_light_brightness_truncates_not_rounds :
    (runCycle defaultConfig initialState ⟨false, some 0, [c1room]⟩ 0).2.1
        = [⟨"l1", .ON, 46⟩]
      ∧ roundNearest ((233 : ℚ) / 500 * 100) = 47
      ∧ (46 : Int) ≠ 47 := by
  refine ⟨?_, ?_, by decide⟩
  · norm_num [runCycle, processRooms, processRoom, roomCommands, needs_lighting,
      has_upcoming_meeting, belowCommands, rebalanceCommands, should_turn_off,
      calculate_optimal_brightness_for_lights, calculate_lights_needed, lightsOn,
      lightsOff, working_lights, Light.isOn, Light.isOff, Light.isBroken, truncInt,
      activationCommands, calculate_light_contribution, energySavingCommands,
      sufficientCommands, absenceCommands, offCommand, defaultConfig, initialState,
      calculate_illumination_after_turning_off, processBrokenLights, c1room]
  · norm_num [roundNearest]

/-- Concrete input for claim C1's witness: the spec's own example — minLux 700,
maxLuxPerLight 500, 0 lux and two off working lights. -/
def c1wroom : Room := ⟨"rw1", "R", 1, [⟨"w1", .OFF, 0⟩, ⟨"w2", .OFF, 0⟩], [], 0⟩

/-- Witness for claim C1's amended theorem at `c1wroom`: deficit 700 gives one
full light plus a fractional one (n = 2), last brightness 40. -/
theorem activation_count_and_floor_brightness_witness :
    (2 : Nat) = min ((1 : Int).toNat + (if (200 : ℚ) = 0 then 0 else 1))
        (lightsOff c1wroom).length
    ∧ (40 : Int) = (if (200 : ℚ) = 0 then (100 : Int) else ⌊(200 : ℚ) / 500 * 100⌋)
    ∧ ((2 : Nat) ≠ 0 → roomCommands defaultConfig (fun _ => none) c1wroom 0
        = rebalanceCommands defaultConfig c1wroom
          ++ activationCommands ((lightsOff c1wroom).take 2) 40)
    ∧ ((2 : Nat) = 0 → ∀ c ∈ roomCommands defaultConfig (fun _ => none) c1wroom 0,
        c.state = .ON → c.lightId ∈ (lightsOn c1wroom).map Light.id)
    ∧ activationCommands ((lightsOff c1wroom).take 2) 40
        = (((lightsOff c1wroom).take 2).dropLast.map fun l => (⟨l.id, .ON, 100⟩ : Cmd))
          ++ (((lightsOff c1wroom).take 2).getLast?.elim []
              fun l => [⟨l.id, .ON, (40 : Int)⟩]) := by
  have hfull : (1 : Int) = ⌊(700 : ℚ) / 500⌋ := by norm_num
  have hrem : (200 : ℚ) = 700 - ((1 : Int) : ℚ) * 500 := by norm_num
  have hnb : ((2 : Nat), (40 : Int))
      = calculate_lights_needed defaultConfig c1wroom.illumination (lightsOff c1wroom) := by
    norm_num [calculate_lights_needed, truncInt, defaultConfig, c1wroom, lightsOff,
      working_lights, Light.isOff, Light.isBroken] <;> decide
  exact activation_count_and_floor_brightness defaultConfig (fun _ => none) c1wroom 0
    700 1 200 2 40 (by norm_num [defaultConfig]) (by decide)
    (by norm_num [defaultConfig, c1wroom]) (by norm_num [defaultConfig, c1wroom])
    hfull hrem hnb

end LightAgent

namespace LightAgent

/-! ### Claim C4: what an occupied room's cycle turns on -/

/-- Claim C4 (amended): for every room with occupant count > 0 in a snapshot
without a power outage, the room's slice of the cycle's command list consists of
commands to already-on lights plus ON commands to exactly the first
`min(lightsNeeded, number of off working lights)` off working lights — not to
every off working light. -/
theorem occupied_room_activation_prefix (cfg : Config) (st : AgentState)
    (snap : Snapshot) (w : ℚ) (room : Room) (n : Nat) (b : Int)
    (hout : snap.powerOutage = false)
    (hmem : room ∈ snap.rooms)
    (hocc : 0 < room.peopleCount)
    (hnb : (n, b) = calculate_lights_needed cfg room.illumination (lightsOff room)) :
    ∃ pre post reb,
      (runCycle cfg st snap w).2.1
        = pre ++ (reb ++ activationCommands ((lightsOff room).take n) b) ++ post
      ∧ (∀ c ∈ reb, c.lightId ∈ (lightsOn room).map Light.id)
      ∧ (∀ c ∈ activationCommands ((lightsOff room).take n) b, c.state = .ON) := by
  have hrun : (runCycle cfg st snap w).2.1
      = (processRooms cfg st (snap.simulationTime.getD w) snap.rooms).2.1 := by
    simp [runCycle, hout]
  obtain ⟨lpt, pre, post, heq⟩ :=
    processRooms_mem_decomp cfg (snap.simulationTime.getD w) snap.rooms st room hmem
  obtain ⟨reb, hreb, hrebmem⟩ :=
    roomCommands_occupied_decomp cfg lpt room (snap.simulationTime.getD w) n b hocc hnb
  refine ⟨pre, post, reb, ?_, hrebmem, ?_⟩
  · rw [hrun, heq, hreb]
  · intro c hc
    exact (activationCommands_mem hc).1

/-- Concrete input refuting claim C4: an occupied room at 300 lux with two off
working lights; one light suffices for the 400 lux deficit. -/
def c4room : Room := ⟨"r4", "R", 1, [⟨"l1", .OFF, 0⟩, ⟨"l2", .OFF, 0⟩], [], 300⟩

/-- Counterexample to claim C4 as stated: light "l2" is a non-broken OFF light
of an occupied room in an outage-free snapshot, yet the cycle commands only
"l1" ON (at 80) and sends no command at all to "l2". -/
theorem occupied_room_leaves_unneeded_lights_off :
    (runCycle defaultConfig initialState ⟨false, some 0, [c4room]⟩ 0).2.1
        = [⟨"l1", .ON, 80⟩]
      ∧ ((runCycle defaultConfig initialState ⟨false, some 0, [c4room]⟩ 0).2.1.filter
          fun c => decide (c.lightId = "l2")) = [] := by
  have heval : (runCycle defaultConfig initialState ⟨false, some 0, [c4room]⟩ 0).2.1
      = [⟨"l1", .ON, 80⟩] := by
    norm_num [runCycle, processRooms, processRoom, roomCommands, needs_lighting,
      has_upcoming_meeting, belowCommands, rebalanceCommands, should_turn_off,
      calculate_optimal_brightness_for_lights, calculate_lights_needed, lightsOn,
      lightsOff, working_lights, Light.isOn, Light.isOff, Light.isBroken, truncInt,
      activationCommands, calculate_light_contribution, energySavingCommands,
      sufficientCommands, absenceCommands, offCommand, defaultConfig, initialState,
      calculate_illumination_after_turning_off, processBrokenLights, c4room]
  refine ⟨heval, ?_⟩
  rw [heval]
  decide

/-- Concrete input for claim C4's witness: occupied room at 0 lux, a single off
working light. -/
def c4wroom : Room := ⟨"rw4", "R", 2, [⟨"p1", .OFF, 0⟩], [], 0⟩

/-- Witness for claim C4's amended theorem at `c4wroom`. -/
theorem occupied_room_activation_prefix_witness :
    ∃ pre post reb,
      (runCycle defaultConfig initialState ⟨false, some 5, [c4wroom]⟩ 0).2.1
        = pre ++ (reb ++ activationCommands ((lightsOff c4wroom).take 1) 40) ++ post
      ∧ (∀ c ∈ reb, c.lightId ∈ (lightsOn c4wroom).map Light.id)
      ∧ (∀ c ∈ activationCommands ((lightsOff c4wroom).take 1) 40, c.state = .ON) :=
  occupied_room_activation_prefix defaultConfig initialState ⟨false, some 5, [c4wroom]⟩
    0 c4wroom 1 40 rfl (List.mem_singleton.mpr rfl) (by decide)
    (by norm_num [calculate_lights_needed, truncInt, defaultConfig, c4wroom, lightsOff,
      working_lights, Light.isOff, Light.isBroken] <;> decide)

/-! ### Claim C5: range of every emitted brightness -/

theorem roomCommands_brightness_bounds (cfg : Config)
    (last_people_time : String → Option ℚ) (room : Room) (t : ℚ) (c : Cmd)
    (hmax : 0 < cfg.max_light_lux)
    (hc : c ∈ roomCommands cfg last_people_time room t) :
    0 ≤ c.brightness ∧ c.brightness ≤ 100 := by
  unfold roomCommands at hc
  split at hc
  · split at hc
    · obtain ⟨_, _, h100⟩ := sufficientCommands_mem cfg room c hc
      rw [h100]
      exact ⟨by norm_num, le_refl 100⟩
    · unfold belowCommands at hc
      rcases List.mem_append.mp hc with h | h
      · obtain ⟨h1, h2⟩ := (rebalanceCommands_mem cfg room c h).2.2
        exact ⟨by omega, h2⟩
      · split at h
        · obtain ⟨_, _, h100⟩ := energySavingCommands_mem cfg room c h
          rw [h100]
          exact ⟨by norm_num, le_refl 100⟩
        · obtain ⟨_, _, h3⟩ := activationCommands_mem h
          have hb := calculate_lights_needed_snd_bounds cfg room.illumination
            (lightsOff room) hmax
          rcases h3 with h3 | h3 <;> rw [h3]
          · exact ⟨by norm_num, le_refl 100⟩
          · exact hb
  · obtain ⟨_, _, h100⟩ := absenceCommands_mem cfg last_people_time room t c hc
    rw [h100]
    exact ⟨by norm_num, le_refl 100⟩

/-- Claim C5 (amended): every brightness the engine sends lies in [0, 100] —
never negative, never above 100. No positive configured minimum is enforced:
the rebalance pass clamps to [1, 100], but the activation pass's last light can
receive 0, as the counterexample below shows. -/
theorem command_brightness_in_range (cfg : Config) (st : AgentState) (snap : Snapshot)
    (w : ℚ) (c : Cmd) (hmax : 0 < cfg.max_light_lux)
    (hc : c ∈ (runCycle cfg st snap w).2.1) :
    0 ≤ c.brightness ∧ c.brightness ≤ 100 := by
  simp only [runCycle] at hc
  split at hc
  · simp at hc
  · obtain ⟨lpt, room, _, hcmd⟩ :=
      processRooms_cmds_mem cfg (snap.simulationTime.getD w) snap.rooms st c hc
    exact roomCommands_brightness_bounds cfg lpt room (snap.simulationTime.getD w) c hmax hcmd

/-- Concrete snapshot for claim C5's witness. -/
def c5wsnap : Snapshot := ⟨false, some 0, [⟨"r5", "R", 1, [⟨"q1", .OFF, 0⟩], [], 467⟩]⟩

/-- Witness for claim C5's amended theorem: the one command of the `c5wsnap`
cycle has brightness 46 ∈ [0, 100]. -/
theorem command_brightness_in_range_witness :
    (0 : ℚ) < defaultConfig.max_light_lux
    ∧ (⟨"q1", .ON, 46⟩ : Cmd) ∈ (runCycle defaultConfig initialState c5wsnap 0).2.1
    ∧ (0 ≤ (46 : Int) ∧ (46 : Int) ≤ 100) := by
  have heval : (runCycle defaultConfig initialState c5wsnap 0).2.1 = [⟨"q1", .ON, 46⟩] := by
    norm_num [runCycle, processRooms, processRoom, roomCommands, needs_lighting,
      has_upcoming_meeting, belowCommands, rebalanceCommands, should_turn_off,
      calculate_optimal_brightness_for_lights, calculate_lights_needed, lightsOn,
      lightsOff, working_lights, Light.isOn, Light.isOff, Light.isBroken, truncInt,
      activationCommands, calculate_light_contribution, energySavingCommands,
      sufficientCommands, absenceCommands, offCommand, defaultConfig, initialState,
      calculate_illumination_after_turning_off, processBrokenLights, c5wsnap]
  have hmem : (⟨"q1", .ON, 46⟩ : Cmd) ∈ (runCycle defaultConfig initialState c5wsnap 0).2.1 := by
    rw [heval]
    exact List.mem_singleton.mpr rfl
  exact ⟨by norm_num [defaultConfig], hmem,
    command_brightness_in_range defaultConfig initialState c5wsnap 0 _
      (by norm_num [defaultConfig]) hmem⟩

/-- Concrete input refuting claim C5's configured minimum: occupied room at 198
lux with two off working lights; deficit 502 gives one full light and a last
one with `int(2 / 500 * 100) = 0`. -/
def c5room : Room := ⟨"rz", "R", 1, [⟨"z1", .OFF, 0⟩, ⟨"z2", .OFF, 0⟩], [], 198⟩

/-- Counterexample to claim C5 as stated: the cycle commands light "z2" ON at
brightness 0, below the brightness floor of 1 that the engine's own rebalance
clamp (src/simple_agent.py line 135) treats as the configured minimum. -/
theorem activation_brightness_can_be_zero :
    (runCycle defaultConfig initialState ⟨false, some 0, [c5room]⟩ 0).2.1
        = [⟨"z1", .ON, 100⟩, ⟨"z2", .ON, 0⟩]
      ∧ (⟨"z2", .ON, 0⟩ : Cmd)
          ∈ (runCycle defaultConfig initialState ⟨false, some 0, [c5room]⟩ 0).2.1
      ∧ ¬ (1 ≤ (0 : Int)) := by
  have heval : (runCycle defaultConfig initialState ⟨false, some 0, [c5room]⟩ 0).2.1
      = [⟨"z1", .ON, 100⟩, ⟨"z2", .ON, 0⟩] := by
    norm_num [runCycle, processRooms, processRoom, roomCommands, needs_lighting,
      has_upcoming_meeting, belowCommands, rebalanceCommands, should_turn_off,
      calculate_optimal_brightness_for_lights, calculate_lights_needed, lightsOn,
      lightsOff, working_lights, Light.isOn, Light.isOff, Light.isBroken, truncInt,
      activationCommands, calculate_light_contribution, energySavingCommands,
      sufficientCommands, absenceCommands, offCommand, defaultConfig, initialState,
      calculate_illumination_after_turning_off, processBrokenLights, c5room]
  refine ⟨heval, ?_, by decide⟩
  rw [heval]
  decide

end LightAgent

namespace LightAgent

/-! ### Claim C10: at most one command per light per cycle -/

theorem offCommand_ids (ls : List Light) :
    (ls.map offCommand).map Cmd.lightId = ls.map Light.id := by
  rw [List.map_map]
  apply List.map_congr_left
  intro l _
  rfl

theorem rebalanceCommands_ids (cfg : Config) (room : Room) :
    (rebalanceCommands cfg room).map Cmd.lightId
      = (calculate_optimal_brightness_for_lights cfg room.illumination
          (lightsOn room)).map Prod.fst := by
  unfold rebalanceCommands
  rw [List.map_map]
  apply List.map_congr_left
  intro p _
  rfl

theorem roomCommands_ids (cfg : Config) (last_people_time : String → Option ℚ)
    (room : Room) (t : ℚ)
    (hmax : 0 ≤ cfg.max_light_lux)
    (hids : (room.lights.map Light.id).Nodup)
    (hbr : ∀ l ∈ room.lights, 0 ≤ l.brightness) :
    ((roomCommands cfg last_people_time room t).map Cmd.lightId).Nodup
    ∧ ∀ i ∈ (roomCommands cfg last_people_time room t).map Cmd.lightId,
        i ∈ room.lights.map Light.id := by
  have honN : ((lightsOn room).map Light.id).Nodup :=
    ((lightsOn_sublist room).map _).nodup hids
  have hoffN : ((lightsOff room).map Light.id).Nodup :=
    ((lightsOff_sublist room).map _).nodup hids
  have hsubOn : ∀ i ∈ (lightsOn room).map Light.id, i ∈ room.lights.map Light.id :=
    fun i hi => ((lightsOn_sublist room).map Light.id).subset hi
  have hsubOff : ∀ i ∈ (lightsOff room).map Light.id, i ∈ room.lights.map Light.id :=
    fun i hi => ((lightsOff_sublist room).map Light.id).subset hi
  cases hneeds : needs_lighting cfg room t with
  | false =>
    have habs : roomCommands cfg last_people_time room t
        = absenceCommands cfg last_people_time room t := by
      simp [roomCommands, hneeds]
    rw [habs]
    unfold absenceCommands
    split
    · rw [offCommand_ids]
      exact ⟨honN, hsubOn⟩
    · simp
  | true =>
    by_cases hge : cfg.min_illumination_lux ≤ room.illumination
    · rw [roomCommands_of_sufficient cfg last_people_time room t hneeds hge]
      unfold sufficientCommands
      split
      · rw [offCommand_ids]
        exact ⟨honN, hsubOn⟩
      · simp
    · push_neg at hge
      rw [roomCommands_of_below cfg last_people_time room t hneeds hge]
      unfold belowCommands
      have hreb_sub : ((rebalanceCommands cfg room).map Cmd.lightId).Sublist
          ((lightsOn room).map Light.id) := by
        rw [rebalanceCommands_ids]
        exact calculate_optimal_ids_sublist cfg room.illumination (lightsOn room)
      split
      · rw [energySavingCommands_empty cfg room hmax hbr hge, List.append_nil]
        exact ⟨hreb_sub.nodup honN, fun i hi => hsubOn i (hreb_sub.subset hi)⟩
      · rw [List.map_append]
        have hact_ids := activationCommands_ids
          ((lightsOff room).take
            (calculate_lights_needed cfg room.illumination (lightsOff room)).1)
          (calculate_lights_needed cfg room.illumination (lightsOff room)).2
        have htake_sub : (((lightsOff room).take
              (calculate_lights_needed cfg room.illumination (lightsOff room)).1).map
                Light.id).Sublist ((lightsOff room).map Light.id) :=
          (List.take_sublist _ _).map _
        constructor
        · rw [List.nodup_append]
          refine ⟨hreb_sub.nodup honN, ?_, ?_⟩
          · rw [hact_ids]
            exact htake_sub.nodup hoffN
          · intro i hi1 hi2
            have hion : i ∈ (lightsOn room).map Light.id := hreb_sub.subset hi1
            have hioff : i ∈ (lightsOff room).map Light.id := by
              rw [hact_ids] at hi2
              exact htake_sub.subset hi2
            exact on_off_ids_disjoint hids hion hioff
        · intro i hi
          rcases List.mem_append.mp hi with h | h
          · exact hsubOn i (hreb_sub.subset h)
          · rw [hact_ids] at h
            exact hsubOff i (htake_sub.subset h)

theorem processRooms_ids (cfg : Config) (t : ℚ) :
    ∀ (rooms : List Room) (st : AgentState),
      0 ≤ cfg.max_light_lux →
      ((rooms.map Room.lights).flatten.map Light.id).Nodup →
      (∀ l ∈ (rooms.map Room.lights).flatten, 0 ≤ l.brightness) →
      (((processRooms cfg st t rooms).2.1).map Cmd.lightId).Nodup
      ∧ ∀ i ∈ ((processRooms cfg st t rooms).2.1).map Cmd.lightId,
          i ∈ (rooms.map Room.lights).flatten.map Light.id := by
  intro rooms
  induction rooms with
  | nil =>
    intro st _ _ _
    refine ⟨by simp [processRooms], ?_⟩
    intro i hi
    simp [processRooms] at hi
  | cons r rest ih =>
    intro st hmax hids hbr
    rw [List.map_cons, List.flatten_cons, List.map_append] at hids
    obtain ⟨h1, h2, hdisj⟩ := List.nodup_append.mp hids
    have hbr1 : ∀ l ∈ r.lights, 0 ≤ l.brightness := by
      intro l hl
      apply hbr
      rw [List.map_cons, List.flatten_cons]
      exact List.mem_append_left _ hl
    have hbr2 : ∀ l ∈ (rest.map Room.lights).flatten, 0 ≤ l.brightness := by
      intro l hl
      apply hbr
      rw [List.map_cons, List.flatten_cons]
      exact List.mem_append_right _ hl
    have hcons : (processRooms cfg st t (r :: rest)).2.1
        = (processRoom cfg st t r).2.1
          ++ (processRooms cfg (processRoom cfg st t r).1 t rest).2.1 := rfl
    have hhead := roomCommands_ids cfg
      (if 0 < r.peopleCount then
        (fun x => if x = r.id then some t else st.last_people_time x)
      else st.last_people_time) r t hmax h1 hbr1
    rw [← processRoom_cmds cfg st t r] at hhead
    have htail := ih (processRoom cfg st t r).1 hmax h2 hbr2
    rw [hcons, List.map_append]
    constructor
    · rw [List.nodup_append]
      refine ⟨hhead.1, htail.1, ?_⟩
      intro i hi1 hi2
      exact hdisj (hhead.2 i hi1) (htail.2 i hi2)
    · intro i hi
      rw [List.map_cons, List.flatten_cons, List.map_append]
      rcases List.mem_append.mp hi with h | h
      · exact List.mem_append_left _ (hhead.2 i h)
      · exact List.mem_append_right _ (htail.2 i h)

/-- Claim C10: in one cycle each light receives at most one command. With
pairwise-distinct light ids across the snapshot (the data model's implicit
wellformedness) and non-negative brightness readings, the command list's light
ids are pairwise distinct: the per-room branches are mutually exclusive, the
rebalance pass targets only ON lights, the activation pass only OFF lights, and
rooms contribute commands only for their own lights. -/
theorem one_command_per_light (cfg : Config) (st : AgentState) (snap : Snapshot)
    (w : ℚ) (hmax : 0 ≤ cfg.max_light_lux)
    (hids : ((snap.rooms.map Room.lights).flatten.map Light.id).Nodup)
    (hbr : ∀ l ∈ (snap.rooms.map Room.lights).flatten, 0 ≤ l.brightness) :
    ((runCycle cfg st snap w).2.1.map Cmd.lightId).Nodup := by
  simp only [runCycle]
  split
  · simp
  · exact (processRooms_ids cfg (snap.simulationTime.getD w) snap.rooms st hmax hids hbr).1

/-- Concrete two-room snapshot for claim C10's witness: the first room gets a
rebalance command for "a1" and an activation command for "a2"; the second,
empty room gets an absence OFF command for "b1". -/
def c10snap : Snapshot :=
  ⟨false, some 0,
    [⟨"r1", "R1", 1, [⟨"a1", .ON, 10⟩, ⟨"a2", .OFF, 0⟩], [], 100⟩,
     ⟨"r2", "R2", 0, [⟨"b1", .ON, 100⟩], [], 0⟩]⟩

/-- Witness for claim C10's theorem at `c10snap`. -/
theorem one_command_per_light_witness :
    ((runCycle defaultConfig initialState c10snap 0).2.1.map Cmd.lightId).Nodup :=
  one_command_per_light defaultConfig initialState c10snap 0
    (by norm_num [defaultConfig]) (by decide) (by decide)

end LightAgent
